import Mathlib

/-!
Shallow embedding of the two logic cores of this repository:

* src/app.py — the attendance dashboard.  Its function
  load_and_process_data reads a roster table and a scan-log table,
  drops rows whose id cell is missing, coerces the id column to
  strings, takes the set of distinct log ids as the present ids,
  marks each roster entry PRESENT or ABSENT by membership in that
  set, and computes the latest parseable timestamp of the log.
  Any exception while loading yields the empty report
  (empty frame, the string "Failed to load", empty set).
  The page body then derives total, present and absent counts.

* src/pages/blueprint.py — the blueprint generator.  It groups the
  tagged questions by (Unit, Marks), counts group sizes, unstacks
  marks into columns (pandas sorts the group keys), fills missing
  counts with 0, makes sure columns 1, 2, 3 exist, and adds a
  Total Marks column worth 1*c1 + 2*c2 + 3*c3; the grand total is
  the sum of that column.

Raw spreadsheet cells are modelled as Option Cell: none is a
missing value (NaN, removed by dropna), Cell.num an integer-typed
cell and Cell.text a string-typed cell; astype(str) is Cell.str.
Timestamps are modelled as Option Nat after the errors="coerce"
parse: none is an unparseable or missing timestamp (NaT).
-/

/-- A raw spreadsheet cell after type inference: an integer-typed
value or a string-typed value.  astype(str) renders both. -/
inductive Cell where
  | num (n : Int)
  | text (s : String)
deriving DecidableEq, Repr

/-- The astype(str) coercion of a cell to its canonical string. -/
def Cell.str : Cell → String
  | .num n => toString n
  | .text s => s

/-- One row of the Roster tab: the Student ID cell (none when the
cell is missing) plus the passthrough Student Name column. -/
structure RosterRow where
  sid : Option Cell
  name : String
deriving DecidableEq, Repr

/-- One row of the Form Responses 1 tab: the ID cell (none when
missing) and the Timestamp column after the coercing parse
(none when missing or unparseable). -/
structure LogRow where
  lid : Option Cell
  ts : Option Nat
deriving DecidableEq, Repr

/-- A processed log row: the id coerced to a string, timestamp kept. -/
structure ScanRec where
  lid : String
  ts : Option Nat
deriving DecidableEq, Repr

/-- One row of the final attendance frame: id (the index), the
passthrough name, and the derived Attendance Status string. -/
structure StudentRecord where
  sid : String
  name : String
  status : String
deriving DecidableEq, Repr

/-- The value shown as Last Scan Time: a real time, the
"N/A (No scans recorded yet)" sentinel, or the "Failed to load"
sentinel returned when loading raised. -/
inductive LastUpdate where
  | time (t : Nat)
  | noScans
  | failedLoad
deriving DecidableEq, Repr

/-- The triple returned by load_and_process_data. -/
structure Report where
  roster : List StudentRecord
  lastUpdate : LastUpdate
  presentIds : List String
deriving DecidableEq, Repr

/-- dropna(subset=[ROSTER_ID_COL]) followed by astype(str) and
set_index: rows with a missing id are dropped, the rest keep their
id as a string. -/
def processRoster (rows : List RosterRow) : List (String × String) :=
  rows.filterMap fun r => r.sid.map fun c => (c.str, r.name)

/-- dropna(subset=[LOG_ID_COL]) followed by astype(str) on the log. -/
def processLog (rows : List LogRow) : List ScanRec :=
  rows.filterMap fun r => r.lid.map fun c => ⟨c.str, r.ts⟩

/-- set(df_log[LOG_ID_COL].unique()): the distinct ids of the
processed log, as a duplicate-free list. -/
def presentIdsOf (plog : List ScanRec) : List String :=
  (plog.map ScanRec.lid).dedup

/-- check_status from src/app.py: PRESENT exactly when the roster id
occurs among the present ids. -/
def check_status (pids : List String) (row_id : String) : String :=
  if row_id ∈ pids then "PRESENT" else "ABSENT"

/-- df_log[TIMESTAMP_COL].max() after the coercing datetime parse:
the greatest non-null timestamp, or the no-scans sentinel when every
timestamp of the processed log is null. -/
def lastUpdateOf (plog : List ScanRec) : LastUpdate :=
  match (plog.filterMap ScanRec.ts).max? with
  | some t => .time t
  | none => .noScans

/-- load_and_process_data from src/app.py.  The two Option inputs
model the two conn.read fetches; none means the fetch raised.  The
whole body sits in one try block, so a failure of either fetch
lands in the except branch, which returns the empty frame, the
"Failed to load" sentinel and the empty set. -/
def load_and_process_data (rosterFetch : Option (List RosterRow))
    (logFetch : Option (List LogRow)) : Report :=
  match rosterFetch, logFetch with
  | some rrows, some lrows =>
    let proster := processRoster rrows
    let plog := processLog lrows
    let pids := presentIdsOf plog
    { roster := proster.map fun p => ⟨p.1, p.2, check_status pids p.1⟩
      lastUpdate := lastUpdateOf plog
      presentIds := pids }
  | _, _ => { roster := [], lastUpdate := .failedLoad, presentIds := [] }

/-- total_students = len(df_attendance). -/
def total_students (rep : Report) : Nat := rep.roster.length

/-- present_count = len(present_ids). -/
def present_count (rep : Report) : Nat := rep.presentIds.length

/-- absent_count = total_students - present_count, over the
integers as in Python. -/
def absent_count (rep : Report) : Int :=
  (total_students rep : Int) - (present_count rep : Int)

/-- The roster of the worked example of the spec: ids 1, 2, 3. -/
def roster3 : List RosterRow :=
  [⟨some (.text "1"), "A"⟩, ⟨some (.text "2"), "B"⟩, ⟨some (.text "3"), "C"⟩]

/-- The log of the worked example: id 2 at t0 = 10, id 2 at t1 = 20,
id 9 at t2 = 30. -/
def log3 : List LogRow :=
  [⟨some (.text "2"), some 10⟩, ⟨some (.text "2"), some 20⟩,
   ⟨some (.text "9"), some 30⟩]

/-- The report the code produces on the worked example. -/
def rep3 : Report := load_and_process_data (some roster3) (some log3)

/-- Modelled from the spec: the source under src/ has no cutoff
parameter at all; the spec describes an optional cutoff instant
that keeps only scan events with timestamp at or after the cutoff,
events with unparseable timestamps being excluded from the present
determination while a cutoff is active. -/
def filterByCutoff (plog : List ScanRec) (c : Nat) : List ScanRec :=
  plog.filter fun r =>
    match r.ts with
    | some t => c ≤ t
    | none => false

/-- Modelled from the spec: the present ids under a cutoff are the
distinct ids of the cutoff-filtered processed log. -/
def presentIdsCutoff (lrows : List LogRow) (c : Nat) : List String :=
  presentIdsOf (filterByCutoff (processLog lrows) c)

/-- Modelled from the spec: the status of one student id under a
cutoff, by membership in the cutoff-filtered present ids. -/
def statusCutoff (lrows : List LogRow) (c : Nat) (sid : String) : String :=
  check_status (presentIdsCutoff lrows c) sid

/-- One tagged question collected by src/pages/blueprint.py: the
record appended to question_data for a filled (sub-)question slot. -/
structure Tagged where
  question : String
  unit : String
  difficulty : String
  marks : Nat
  qtype : String
deriving DecidableEq, Repr

/-- Lexicographic comparison of two character lists by code point,
the order Python uses on strings. -/
def leChars : List Char → List Char → Bool
  | [], _ => true
  | _ :: _, [] => false
  | a :: as, b :: bs =>
    if a.toNat < b.toNat then true
    else if a.toNat = b.toNat then leChars as bs else false

/-- Lexicographic comparison of two strings by code point. -/
def strLe (a b : String) : Bool := leChars a.data b.data

/-- The string order as a proposition, for the sorting lemmas. -/
def UnitLe (a b : String) : Prop := strLe a b = true

instance : DecidableRel UnitLe := fun a b => by
  unfold UnitLe; infer_instance

/-- The distinct units of the input in the order pandas groupby
yields them: sorted ascending, since groupby sorts its group keys
by default. -/
def sortedUnits (qs : List Tagged) : List String :=
  List.insertionSort UnitLe ((qs.map Tagged.unit)).dedup

/-- The size of the (unit, marks) group inside the input. -/
def countUM (qs : List Tagged) (u : String) (m : Nat) : Nat :=
  qs.countP fun q => q.unit == u && q.marks == m

/-- One row of the Blueprint Summary frame: unit, the counts of the
1 Mark, 2 Marks and 3 Marks columns, and the Total Marks column. -/
structure BlueprintRow where
  unit : String
  mark1 : Nat
  mark2 : Nat
  mark3 : Nat
  totalMarks : Nat
deriving DecidableEq, Repr

/-- The Blueprint Summary frame: groupby(["Unit", "Marks"]).size()
unstacked with fill_value=0, the columns 1, 2 and 3 forced to
exist, and Total Marks = 1*c1 + 2*c2 + 3*c3 per row. -/
def blueprint (qs : List Tagged) : List BlueprintRow :=
  (sortedUnits qs).map fun u =>
    let c1 := countUM qs u 1
    let c2 := countUM qs u 2
    let c3 := countUM qs u 3
    ⟨u, c1, c2, c3, c1 * 1 + c2 * 2 + c3 * 3⟩

/-- The success banner figure: the sum of the Total Marks column. -/
def grandTotal (qs : List Tagged) : Nat :=
  ((blueprint qs).map BlueprintRow.totalMarks).sum

/-- The worked blueprint example of the spec: two 2-mark questions
in U1 and one 3-mark question in U2. -/
def taggedEx : List Tagged :=
  [⟨"Q4(i)", "U1", "Easy", 2, "Objective"⟩,
   ⟨"Q5(i)", "U1", "Medium", 2, "Subjective"⟩,
   ⟨"Q4(ii)", "U2", "HOTS", 3, "Objective"⟩]

/-- A two-question input whose first-appearance unit order differs
from the alphabetical order: U9 appears before U10 in the input,
yet the string U10 sorts before the string U9. -/
def taggedOrd : List Tagged :=
  [⟨"Q1", "U9", "Easy", 1, "Objective"⟩,
   ⟨"Q2", "U10", "Easy", 1, "Objective"⟩]

/-! Sanity checks evaluating the embedded code on concrete data. -/

example : rep3.presentIds = ["2", "9"] := by decide
example : present_count rep3 = 2 := by decide
example : absent_count rep3 = 1 := by decide
example : rep3.lastUpdate = .time 30 := by decide
example : rep3.roster =
    [⟨"1", "A", "ABSENT"⟩, ⟨"2", "B", "PRESENT"⟩, ⟨"3", "C", "ABSENT"⟩] := by
  decide
example : blueprint taggedEx =
    [⟨"U1", 0, 2, 0, 4⟩, ⟨"U2", 0, 0, 1, 3⟩] := by decide
example : grandTotal taggedEx = 7 := by decide
example : (blueprint taggedOrd).map BlueprintRow.unit = ["U10", "U9"] := by
  decide

/-! Helper lemmas about the attendance pipeline. -/

lemma processRoster_length_of_isSome (rrows : List RosterRow)
    (h : ∀ r ∈ rrows, r.sid.isSome) :
    (processRoster rrows).length = rrows.length := by
  induction rrows with
  | nil => rfl
  | cons r rs ih =>
    have hr := h r (List.mem_cons_self r rs)
    cases hs : r.sid with
    | none => rw [hs] at hr; simp at hr
    | some c =>
      have := ih fun p hp => h p (List.mem_cons_of_mem _ hp)
      simp only [processRoster, List.filterMap_cons, hs, Option.map_some]
      simpa [processRoster] using this

lemma processLog_map_lid (lrows : List LogRow) :
    (processLog lrows).map ScanRec.lid
      = (lrows.map LogRow.lid).filterMap fun o => o.map Cell.str := by
  induction lrows with
  | nil => rfl
  | cons r rs ih =>
    cases hs : r.lid <;>
      simp [processLog, List.filterMap_cons, hs, ih] <;>
      simpa [processLog] using ih

lemma lastUpdateOf_spec (plog : List ScanRec) :
    (lastUpdateOf plog = LastUpdate.noScans ↔ plog.filterMap ScanRec.ts = []) ∧
    ∀ t, lastUpdateOf plog = LastUpdate.time t ↔
      t ∈ plog.filterMap ScanRec.ts ∧ ∀ u ∈ plog.filterMap ScanRec.ts, u ≤ t := by
  unfold lastUpdateOf
  cases hm : (plog.filterMap ScanRec.ts).max? with
  | none =>
    have he : plog.filterMap ScanRec.ts = [] := List.max?_eq_none_iff.mp hm
    refine ⟨by simp [he], fun t => ?_⟩
    simp [he]
  | some m =>
    have hs := List.max?_eq_some_iff'.mp hm
    constructor
    · simp only [LastUpdate.noScans, reduceCtorEq, false_iff]
      intro he
      rw [he] at hs
      exact absurd hs.1 (List.not_mem_nil m)
    · intro t
      constructor
      · intro ht
        have : m = t := by injection ht
        exact this ▸ hs
      · rintro ⟨hmem, hub⟩
        have h1 : t ≤ m := hs.2 t hmem
        have h2 : m ≤ t := hub m hs.1
        have : m = t := Nat.le_antisymm h2 h1
        rw [this]

/-- C1: on the worked example the claim predicts presentIds equal to
the singleton of id 2, one present and two absent.  The code takes
the distinct ids of the whole log without intersecting the roster,
so id 9 lands in presentIds even though it is not a roster id, the
present count is 2 and the absent count is 1.  This refutes the
claim at its own example input. -/
theorem C1_counterexample :
    present_count rep3 ≠ 1 ∧ absent_count rep3 ≠ 2 ∧
    "9" ∈ rep3.presentIds ∧ ∀ r ∈ rep3.roster, r.sid ≠ "9" := by
  decide

/-- C1 amended: on the roster with ids 1, 2, 3 and the log with
scans of id 2 at t0 = 10 and t1 = 20 and of id 9 at t2 = 30, the
resolver produces presentIds as the distinct log ids 2 and 9 (the
set is not intersected with the roster), a present count of 2, an
absent count of 1, lastScanTime = max(t0, t1, t2) = 30, and only
the roster student with id 2 is marked PRESENT. -/
theorem C1_amended_example_report :
    present_count rep3 = 2 ∧ absent_count rep3 = 1 ∧
    rep3.presentIds = ["2", "9"] ∧
    rep3.lastUpdate = LastUpdate.time 30 ∧
    rep3.roster =
      [⟨"1", "A", "ABSENT"⟩, ⟨"2", "B", "PRESENT"⟩, ⟨"3", "C", "ABSENT"⟩] := by
  decide

/-- C2: the claim predicts that a failed log fetch with a loaded
roster still yields a report built from the roster, every student
ABSENT.  The code wraps both fetches in one try block, so a log
failure falls into the same except branch as a roster failure and
the whole report is the empty one: at the concrete three-student
roster the produced roster is empty, not the predicted all-ABSENT
roster. -/
theorem C2_counterexample :
    (load_and_process_data (some roster3) none).roster
      ≠ [⟨"1", "A", "ABSENT"⟩, ⟨"2", "B", "ABSENT"⟩, ⟨"3", "C", "ABSENT"⟩] := by
  decide

/-- C2 amended: if the scan log cannot be loaded, the whole report
fails regardless of the roster fetch: the resolver returns the same
empty report as for a roster failure, with an empty roster, the
failed-load sentinel and no present ids, rather than a roster-only
view. -/
theorem C2_amended_whole_report_fails (rosterFetch : Option (List RosterRow)) :
    load_and_process_data rosterFetch none
      = ⟨[], LastUpdate.failedLoad, []⟩ := by
  cases rosterFetch <;> rfl

/-- C9: if the roster cannot be loaded the resolver returns the
empty report: empty roster, the failed-load sentinel in place of a
last scan time, and an empty present set.  The except branch of
load_and_process_data converts the failure into this value, so
nothing propagates to the rendering layer, which detects the
condition through the empty roster frame. -/
theorem C9_roster_failure_empty_report (logFetch : Option (List LogRow)) :
    load_and_process_data none logFetch
      = ⟨[], LastUpdate.failedLoad, []⟩ := by
  cases logFetch <;> rfl

/-- C5: for a roster whose rows all carry an id and whose ids are
pairwise distinct, the present count plus the absent count equals
the roster size, because the page computes the absent count as the
total minus the present count. -/
theorem C5_count_partition (rrows : List RosterRow) (lrows : List LogRow)
    (hids : ∀ r ∈ rrows, r.sid.isSome)
    (hdedup : ((processRoster rrows).map Prod.fst).Nodup) :
    (present_count (load_and_process_data (some rrows) (some lrows)) : Int)
      + absent_count (load_and_process_data (some rrows) (some lrows))
      = rrows.length := by
  have hlen :
      total_students (load_and_process_data (some rrows) (some lrows))
        = rrows.length := by
    have := processRoster_length_of_isSome rrows hids
    simpa [total_students, load_and_process_data] using this
  unfold absent_count
  omega

/-- C5 witness: the partition identity at the worked example. -/
theorem C5_count_partition_witness :
    (∀ r ∈ roster3, r.sid.isSome) ∧
    ((processRoster roster3).map Prod.fst).Nodup ∧
    (present_count (load_and_process_data (some roster3) (some log3)) : Int)
      + absent_count (load_and_process_data (some roster3) (some log3))
      = roster3.length :=
  ⟨by decide, by decide, C5_count_partition roster3 log3 (by decide) (by decide)⟩

/-- C10: two logs with the same id column, differing only in their
timestamps, give the same present ids and the same statuses for
every roster entry; presence never looks at a timestamp. -/
theorem C10_presence_ignores_timestamps (rrows : List RosterRow)
    (l1 l2 : List LogRow) (h : l1.map LogRow.lid = l2.map LogRow.lid) :
    (load_and_process_data (some rrows) (some l1)).presentIds
      = (load_and_process_data (some rrows) (some l2)).presentIds ∧
    (load_and_process_data (some rrows) (some l1)).roster
      = (load_and_process_data (some rrows) (some l2)).roster := by
  have hp : (processLog l1).map ScanRec.lid = (processLog l2).map ScanRec.lid := by
    rw [processLog_map_lid, processLog_map_lid, h]
  have hpids : presentIdsOf (processLog l1) = presentIdsOf (processLog l2) := by
    unfold presentIdsOf
    rw [hp]
  constructor <;> simp [load_and_process_data, hpids]

/-- C10 witness: the log of the worked example against a copy with
shifted and dropped timestamps. -/
theorem C10_presence_ignores_timestamps_witness :
    (log3.map LogRow.lid
        = [⟨some (.text "2"), some 99⟩, ⟨some (.text "2"), none⟩,
           ⟨some (.text "9"), some 1⟩].map LogRow.lid) ∧
    ((load_and_process_data (some roster3) (some log3)).presentIds
        = (load_and_process_data (some roster3)
            (some [⟨some (.text "2"), some 99⟩, ⟨some (.text "2"), none⟩,
                   ⟨some (.text "9"), some 1⟩])).presentIds ∧
      (load_and_process_data (some roster3) (some log3)).roster
        = (load_and_process_data (some roster3)
            (some [⟨some (.text "2"), some 99⟩, ⟨some (.text "2"), none⟩,
                   ⟨some (.text "9"), some 1⟩])).roster) :=
  ⟨by decide,
   C10_presence_ignores_timestamps roster3 log3
     [⟨some (.text "2"), some 99⟩, ⟨some (.text "2"), none⟩,
      ⟨some (.text "9"), some 1⟩] (by decide)⟩

/-- C3: with the cutoff modelled from the spec (the source has no
cutoff parameter), raising the cutoff instant from c1 to c2 can
only move a student from PRESENT to ABSENT: anyone PRESENT under
the higher cutoff c2 is PRESENT under the lower cutoff c1, since
every scan event kept by the filter at c2 is kept at c1. -/
theorem C3_cutoff_monotone (lrows : List LogRow) (c1 c2 : Nat) (hc : c1 ≤ c2)
    (sid : String) (h2 : statusCutoff lrows c2 sid = "PRESENT") :
    statusCutoff lrows c1 sid = "PRESENT" := by
  unfold statusCutoff check_status at h2 ⊢
  split at h2
  · rename_i hmem
    have hmem1 : sid ∈ presentIdsCutoff lrows c1 := by
      unfold presentIdsCutoff presentIdsOf filterByCutoff at hmem ⊢
      rw [List.mem_dedup] at hmem ⊢
      rcases List.mem_map.mp hmem with ⟨r, hr, hlid⟩
      rcases List.mem_filter.mp hr with ⟨hrp, hcond⟩
      refine List.mem_map.mpr ⟨r, List.mem_filter.mpr ⟨hrp, ?_⟩, hlid⟩
      cases hts : r.ts with
      | none => rw [hts] at hcond; simp at hcond
      | some t =>
        rw [hts] at hcond
        simp only [decide_eq_true_eq] at hcond ⊢
        exact Nat.le_trans hc hcond
    rw [if_pos hmem1]
  · exact absurd h2 (by decide)

/-- C3 witness: one scan of id 2 at time 15, cutoffs 5 and 10. -/
theorem C3_cutoff_monotone_witness :
    5 ≤ 10 ∧
    statusCutoff [⟨some (.text "2"), some 15⟩] 10 "2" = "PRESENT" ∧
    statusCutoff [⟨some (.text "2"), some 15⟩] 5 "2" = "PRESENT" :=
  ⟨by decide, by decide,
   C3_cutoff_monotone [⟨some (.text "2"), some 15⟩] 5 10 (by decide) "2"
     (by decide)⟩

/-- C7: the last scan time of a successful load is the no-scans
sentinel exactly when the processed log has no parseable timestamp,
and is the time t exactly when t is a parseable timestamp of the
processed log and no parseable timestamp exceeds it; unparseable
timestamps are ignored. -/
theorem C7_last_scan_time (rrows : List RosterRow) (lrows : List LogRow) :
    ((load_and_process_data (some rrows) (some lrows)).lastUpdate
        = LastUpdate.noScans
      ↔ (processLog lrows).filterMap ScanRec.ts = []) ∧
    ∀ t, ((load_and_process_data (some rrows) (some lrows)).lastUpdate
        = LastUpdate.time t
      ↔ t ∈ (processLog lrows).filterMap ScanRec.ts
          ∧ ∀ u ∈ (processLog lrows).filterMap ScanRec.ts, u ≤ t) := by
  have hl : (load_and_process_data (some rrows) (some lrows)).lastUpdate
      = lastUpdateOf (processLog lrows) := rfl
  rw [hl]
  exact lastUpdateOf_spec (processLog lrows)

lemma processRoster_filter_isSome (rrows : List RosterRow) :
    processRoster (rrows.filter fun r => r.sid.isSome) = processRoster rrows := by
  induction rrows with
  | nil => rfl
  | cons r rs ih =>
    cases hs : r.sid <;>
      simp [processRoster, List.filter_cons, List.filterMap_cons, hs] <;>
      simpa [processRoster] using ih

lemma processLog_filter_isSome (lrows : List LogRow) :
    processLog (lrows.filter fun r => r.lid.isSome) = processLog lrows := by
  induction lrows with
  | nil => rfl
  | cons r rs ih =>
    cases hs : r.lid <;>
      simp [processLog, List.filter_cons, List.filterMap_cons, hs] <;>
      simpa [processLog] using ih

/-- C8: the claim predicts that a roster row with an empty id is
dropped and takes no part in the report.  The code only drops
missing cells (dropna); a present cell holding the empty string
survives astype(str) and becomes a report row, so a one-row roster
with an empty-string id yields a one-row report, not an empty
one. -/
theorem C8_counterexample :
    (load_and_process_data (some [⟨some (.text ""), "X"⟩]) (some [])).roster
      ≠ [] := by
  decide

/-- C8 amended: both id columns are coerced with astype(str), so an
integer-typed id and the text of the same integer compare equal and
match; rows whose id cell is missing are dropped and take no part
in any component of the report; rows whose id is the empty string
are kept, not dropped. -/
theorem C8_amended_normalized_ids (rrows : List RosterRow) (lrows : List LogRow) :
    load_and_process_data (some (rrows.filter fun r => r.sid.isSome))
        (some (lrows.filter fun r => r.lid.isSome))
      = load_and_process_data (some rrows) (some lrows) ∧
    ∀ (n : Int) (nm : String) (ts : Option Nat),
      (load_and_process_data (some [⟨some (.num n), nm⟩])
          (some [⟨some (.text (toString n)), ts⟩])).roster
        = [⟨toString n, nm, "PRESENT"⟩] := by
  constructor
  · simp [load_and_process_data, processRoster_filter_isSome,
      processLog_filter_isSome]
  · intro n nm ts
    simp [load_and_process_data, processRoster, processLog, presentIdsOf,
      check_status, Cell.str, List.dedup]

/-! Helper lemmas about the blueprint aggregation. -/

lemma leChars_total (a b : List Char) : leChars a b = true ∨ leChars b a = true := by
  induction a generalizing b with
  | nil => left; rfl
  | cons x xs ih =>
    cases b with
    | nil => right; rfl
    | cons y ys =>
      by_cases hlt : x.toNat < y.toNat
      · left; simp [leChars, hlt]
      · by_cases heq : x.toNat = y.toNat
        · rcases ih ys with h | h
          · left; simp [leChars, hlt, heq, h]
          · right; simp [leChars, heq.symm, h]
        · right
          have : y.toNat < x.toNat := by omega
          simp [leChars, this]

lemma leChars_trans {a b c : List Char} (h1 : leChars a b = true)
    (h2 : leChars b c = true) : leChars a c = true := by
  induction a generalizing b c with
  | nil => rfl
  | cons x xs ih =>
    cases b with
    | nil => simp [leChars] at h1
    | cons y ys =>
      cases c with
      | nil => simp [leChars] at h2
      | cons z zs =>
        simp only [leChars] at h1 h2 ⊢
        by_cases gxy : x.toNat < y.toNat
        · by_cases gyz : y.toNat < z.toNat
          · rw [if_pos (by omega : x.toNat < z.toNat)]
          · by_cases geyz : y.toNat = z.toNat
            · rw [if_pos (by omega : x.toNat < z.toNat)]
            · rw [if_neg gyz, if_neg geyz] at h2
              exact Bool.noConfusion h2
        · by_cases gexy : x.toNat = y.toNat
          · rw [if_neg gxy, if_pos gexy] at h1
            by_cases gyz : y.toNat < z.toNat
            · rw [if_pos (by omega : x.toNat < z.toNat)]
            · by_cases geyz : y.toNat = z.toNat
              · rw [if_neg gyz, if_pos geyz] at h2
                rw [if_neg (by omega : ¬ x.toNat < z.toNat),
                  if_pos (by omega : x.toNat = z.toNat)]
                exact ih h1 h2
              · rw [if_neg gyz, if_neg geyz] at h2
                exact Bool.noConfusion h2
          · rw [if_neg gxy, if_neg gexy] at h1
            exact Bool.noConfusion h1

instance : IsTotal String UnitLe :=
  ⟨fun a b => leChars_total a.data b.data⟩

instance : IsTrans String UnitLe :=
  ⟨fun _ _ _ h1 h2 => leChars_trans h1 h2⟩

lemma sortedUnits_nodup (qs : List Tagged) : (sortedUnits qs).Nodup :=
  (List.perm_insertionSort UnitLe ((qs.map Tagged.unit)).dedup).nodup_iff.mpr
    (List.nodup_dedup _)

lemma mem_sortedUnits (qs : List Tagged) (u : String) :
    u ∈ sortedUnits qs ↔ u ∈ qs.map Tagged.unit := by
  unfold sortedUnits
  rw [(List.perm_insertionSort UnitLe ((qs.map Tagged.unit)).dedup).mem_iff]
  exact List.mem_dedup

lemma sum_map_add_nat {α : Type} (l : List α) (f g : α → Nat) :
    (l.map fun x => f x + g x).sum = (l.map f).sum + (l.map g).sum := by
  induction l with
  | nil => rfl
  | cons a as ih => simp only [List.map_cons, List.sum_cons, ih]; omega

lemma sum_map_mul_const {α : Type} (l : List α) (f : α → Nat) (k : Nat) :
    (l.map fun x => f x * k).sum = (l.map f).sum * k := by
  induction l with
  | nil => simp
  | cons a as ih =>
    simp only [List.map_cons, List.sum_cons, ih, Nat.add_mul]

lemma sum_map_indicator_zero (s : String) (us : List String) (hs : s ∉ us)
    (k : Nat) : (us.map fun u => if s = u then k else 0).sum = 0 := by
  induction us with
  | nil => rfl
  | cons v vs ih =>
    have hne : s ≠ v := fun h => hs (h ▸ List.mem_cons_self v vs)
    have hnm : s ∉ vs := fun h => hs (List.mem_cons_of_mem _ h)
    simp only [List.map_cons, List.sum_cons, if_neg hne, ih hnm, Nat.zero_add]

lemma sum_map_indicator (s : String) (us : List String) (hnd : us.Nodup)
    (hs : s ∈ us) (k : Nat) :
    (us.map fun u => if s = u then k else 0).sum = k := by
  induction us with
  | nil => cases hs
  | cons v vs ih =>
    rcases List.nodup_cons.mp hnd with ⟨hvn, hvs⟩
    by_cases h : s = v
    · subst h
      have hz := sum_map_indicator_zero s vs hvn k
      simp [hz]
    · have hsv : s ∈ vs := by
        rcases List.mem_cons.mp hs with h1 | h1
        · exact absurd h1 h
        · exact h1
      simp only [List.map_cons, List.sum_cons, if_neg h, ih hvs hsv,
        Nat.zero_add]

lemma sum_countUM (us : List String) (hnd : us.Nodup) (qs : List Tagged)
    (m : Nat) (hall : ∀ q ∈ qs, q.unit ∈ us) :
    (us.map fun u => countUM qs u m).sum
      = qs.countP fun q => q.marks == m := by
  induction qs with
  | nil => simp [countUM]
  | cons q rest ih =>
    have hq : q.unit ∈ us := hall q (List.mem_cons_self q rest)
    have hrest : ∀ p ∈ rest, p.unit ∈ us :=
      fun p hp => hall p (List.mem_cons_of_mem _ hp)
    have hcons : ∀ u, countUM (q :: rest) u m
        = countUM rest u m
          + (if (q.unit == u && q.marks == m) = true then 1 else 0) := by
      intro u
      unfold countUM
      rw [List.countP_cons]
    calc (us.map fun u => countUM (q :: rest) u m).sum
        = (us.map fun u => countUM rest u m
            + if (q.unit == u && q.marks == m) = true then 1 else 0).sum := by
          exact congrArg List.sum (List.map_congr_left fun u _ => hcons u)
      _ = (us.map fun u => countUM rest u m).sum
          + (us.map fun u =>
              if (q.unit == u && q.marks == m) = true then 1 else 0).sum :=
          sum_map_add_nat us _ _
      _ = (rest.countP fun p => p.marks == m)
          + (if (q.marks == m) = true then 1 else 0) := by
          rw [ih hrest]
          congr 1
          by_cases hm : (q.marks == m) = true
          · have : ∀ u : String,
                (if (q.unit == u && q.marks == m) = true then 1 else 0)
                  = if q.unit = u then 1 else 0 := by
              intro u
              by_cases hu : q.unit = u
              · simp [hu, hm]
              · simp [hu, fun h => hu (eq_of_beq h)]
            rw [List.map_congr_left fun u _ => this u,
              sum_map_indicator q.unit us hnd hq 1, if_pos hm]
          · have : ∀ u : String,
                (if (q.unit == u && q.marks == m) = true then 1 else 0)
                  = 0 := by
              intro u
              simp only [Bool.and_eq_true]
              rw [if_neg]
              exact fun h => hm h.2
            rw [List.map_congr_left fun u _ => this u, if_neg hm]
            simp
      _ = (q :: rest).countP fun p => p.marks == m := by
          rw [List.countP_cons]

/-- C4: the claim predicts first-appearance order of the unit in
the input, but pandas groupby sorts its group keys: on the input
tagging Q1 to unit U9 and then Q2 to unit U10, the first-appearance
order is U9 then U10, while the produced rows come out U10 then U9
because the string U10 sorts before U9. -/
theorem C4_counterexample :
    (blueprint taggedOrd).map BlueprintRow.unit ≠ ["U9", "U10"] := by
  decide

/-- C4 amended: for every tagged-question list, the rows of the
blueprint summary appear in ascending lexicographic order of the
unit string (one row per distinct unit of the input), because
pandas groupby sorts its group keys; the order is not the
first-appearance order of the input. -/
theorem C4_amended_rows_sorted (qs : List Tagged) :
    List.Sorted UnitLe ((blueprint qs).map BlueprintRow.unit) ∧
    ((blueprint qs).map BlueprintRow.unit).Nodup ∧
    ∀ u, u ∈ (blueprint qs).map BlueprintRow.unit ↔ u ∈ qs.map Tagged.unit := by
  have hunits : (blueprint qs).map BlueprintRow.unit = sortedUnits qs := by
    unfold blueprint
    rw [List.map_map]
    exact List.map_id _
  rw [hunits]
  refine ⟨?_, sortedUnits_nodup qs, mem_sortedUnits qs⟩
  exact List.sorted_insertionSort UnitLe _

/-- C6: every blueprint row has Total Marks equal to the weighted
sum of its three mark-count columns, and the grand total equals the
weighted sum of the mark counts over the full input; on the worked
example with two 2-mark questions in U1 and one 3-mark question in
U2 the grand total is 7. -/
theorem C6_total_marks_invariant (qs : List Tagged) :
    (∀ row ∈ blueprint qs,
      row.totalMarks = 1 * row.mark1 + 2 * row.mark2 + 3 * row.mark3) ∧
    grandTotal qs
      = 1 * qs.countP (fun q => q.marks == 1)
        + 2 * qs.countP (fun q => q.marks == 2)
        + 3 * qs.countP (fun q => q.marks == 3) ∧
    grandTotal taggedEx = 7 := by
  refine ⟨?_, ?_, by decide⟩
  · intro row hrow
    unfold blueprint at hrow
    rcases List.mem_map.mp hrow with ⟨u, _, hu⟩
    rw [← hu]
    dsimp only
    omega
  · have hnd := sortedUnits_nodup qs
    have hall : ∀ q ∈ qs, q.unit ∈ sortedUnits qs :=
      fun q hq => (mem_sortedUnits qs q.unit).mpr (List.mem_map_of_mem _ hq)
    have h1 := sum_countUM (sortedUnits qs) hnd qs 1 hall
    have h2 := sum_countUM (sortedUnits qs) hnd qs 2 hall
    have h3 := sum_countUM (sortedUnits qs) hnd qs 3 hall
    have hg : grandTotal qs
        = (( sortedUnits qs).map fun u =>
            countUM qs u 1 * 1 + countUM qs u 2 * 2 + countUM qs u 3 * 3).sum := by
      unfold grandTotal blueprint
      rw [List.map_map]
      exact congrArg List.sum (List.map_congr_left fun u _ => rfl)
    rw [hg]
    have hsplit : ((sortedUnits qs).map fun u =>
        countUM qs u 1 * 1 + countUM qs u 2 * 2 + countUM qs u 3 * 3).sum
        = ((sortedUnits qs).map fun u => countUM qs u 1).sum * 1
          + ((sortedUnits qs).map fun u => countUM qs u 2).sum * 2
          + ((sortedUnits qs).map fun u => countUM qs u 3).sum * 3 := by
      rw [sum_map_add_nat (sortedUnits qs)
        (fun u => countUM qs u 1 * 1 + countUM qs u 2 * 2)
        (fun u => countUM qs u 3 * 3)]
      rw [sum_map_add_nat (sortedUnits qs)
        (fun u => countUM qs u 1 * 1) (fun u => countUM qs u 2 * 2)]
      rw [sum_map_mul_const (sortedUnits qs) (fun u => countUM qs u 1) 1,
        sum_map_mul_const (sortedUnits qs) (fun u => countUM qs u 2) 2,
        sum_map_mul_const (sortedUnits qs) (fun u => countUM qs u 3) 3]
    rw [hsplit, h1, h2, h3]
    omega
